import Mathlib

/-!
Verification of the bitcoin-peg custody core against its specification.

The definitions below are a shallow embedding of the repository's source:

* `reserve.ts` — signatory-set selector (`getSignatorySet`), threshold
  (`getVotingPowerThreshold`), script-number encoder (`uint`), witness-script
  assembler (`createWitnessScript`), and disbursal builder (`buildOutgoingTx`).
* `src/index.js` — the replicated-state transaction handlers `depositTx` and
  `signatoryKeyTx`, plus `initializer`.

JavaScript values are embedded as follows: byte buffers and string keys become
`List Nat` (JS string comparison is lexicographic on code units, which is the
lexicographic order on these lists); JS numbers used as satoshi amounts become
`Int`; maps/objects become association lists preserving insertion order;
thrown exceptions become `Except String` with the source's message strings.
External libraries (bitcoinjs, bitcoin-merkle-proof, supercop, blockchain-spv)
enter as function parameters or are modelled at their documented interface.
-/

namespace BitcoinPeg

/-- Validator consensus key as stored in a validator map: the key string's
code units (JS string comparison on these keys is lexicographic on code
units, i.e. the lexicographic order on `List Nat`). -/
abbrev ValidatorKey := List Nat

/-- Entry of a validator map: consensus key and integer voting power, as
produced by `Object.entries(validators)` in `reserve.ts`. -/
abbrev ValidatorEntry := ValidatorKey × Nat

/-- Order imposed by the comparator inside `getSignatorySet` (reserve.ts):
`a` sorts no later than `b` exactly when the comparator value
`(votingPowerB - votingPowerA)`, with ties resolved to `b.key < a.key ? 1 : -1`,
is not positive — i.e. voting power descending, ties by key ascending. -/
def signatoryBefore (a b : ValidatorEntry) : Prop :=
  b.2 < a.2 ∨ (a.2 = b.2 ∧ ¬ b.1 < a.1)

instance : DecidableRel signatoryBefore := fun a b => by
  unfold signatoryBefore; infer_instance

instance : IsTotal ValidatorEntry signatoryBefore := by
  constructor
  intro a b
  simp only [signatoryBefore]
  rcases Nat.lt_trichotomy a.2 b.2 with h | h | h
  · right; left; exact h
  · by_cases hk : b.1 < a.1
    · right; right; exact ⟨h.symm, lt_asymm hk⟩
    · left; right; exact ⟨h, hk⟩
  · left; left; exact h

instance : IsTrans ValidatorEntry signatoryBefore := by
  constructor
  intro a b c hab hbc
  simp only [signatoryBefore] at hab hbc ⊢
  rcases hab with h1 | ⟨h1, k1⟩ <;> rcases hbc with h2 | ⟨h2, k2⟩
  · left; omega
  · left; omega
  · left; omega
  · right
    refine ⟨by omega, ?_⟩
    intro hca
    exact absurd hca (not_lt.mpr (le_trans (not_lt.mp k1) (not_lt.mp k2)))

/-- Element of the selector output: validator key with its voting power,
mirroring the `{ validatorKey, votingPower }` records of `reserve.ts`. -/
structure Signatory where
  validatorKey : ValidatorKey
  votingPower : Nat
deriving DecidableEq, Repr

/-- Constant `MAX_SIGNATORIES` from `reserve.ts`. -/
def MAX_SIGNATORIES : Nat := 76

/-- Constant `MIN_RELAY_FEE` from `reserve.ts` (satoshis). -/
def MIN_RELAY_FEE : Int := 1000

/-- Lean embedding of `getSignatorySet` (reserve.ts): sort the validator-map
entries with the source comparator and truncate to `MAX_SIGNATORIES`. The JS
comparator never returns `0` on entries with distinct keys, so the sorted
result is the unique enumeration of the entries in `signatoryBefore` order;
insertion sort computes it. -/
def getSignatorySet (validators : List ValidatorEntry) : List Signatory :=
  ((List.insertionSort signatoryBefore validators).map
    (fun p => { validatorKey := p.1, votingPower := p.2 })).take MAX_SIGNATORIES

/-- Lean embedding of `getVotingPowerThreshold` (reserve.ts), applied to the
voting powers of the signatory list it receives: the JS
`Math.ceil((totalVotingPower * 2) / 3)` equals `(2 * total + 2) / 3` in `Nat`
arithmetic (exact, since the involved doubles are far below 2^53). -/
def getVotingPowerThreshold (votingPowers : List Nat) : Nat :=
  (2 * votingPowers.sum + 2) / 3

/-- Big-endian base-256 digits of `n`, most significant first, accumulator
style; the first argument is fuel, always called with fuel ≥ number of
digits. -/
def beBytesAux : Nat → Nat → List Nat → List Nat
  | 0, _, acc => acc
  | fuel + 1, n, acc =>
    if n = 0 then acc else beBytesAux fuel (n / 256) (n % 256 :: acc)

/-- Byte list denoted by the hex string `n.toString(16)` padded on the left to
an even number of hex digits, as built inside `uint` (reserve.ts): the
big-endian base-256 digits of `n`, with `0` rendered as the single byte `0`. -/
def beBytes (n : Nat) : List Nat :=
  if n = 0 then [0] else beBytesAux n n []

/-- Lean embedding of `uint` (reserve.ts): rejects values outside `[0, 2^32)`
(the `Number.isInteger` guard is subsumed by the `Int` domain) and otherwise
emits the even-length hex encoding of `n`, i.e. its big-endian bytes. -/
def uint (n : Int) : Except String (List Nat) :=
  if n > 0xffffffff ∨ n < 0 then .error "Number must be >= 0 and < 2^32"
  else .ok (beBytes n.toNat)

/-- Helper for `leBytesMinimal`; the first argument is fuel ≥ digit count. -/
def leBytesMinimalAux : Nat → Nat → List Nat
  | 0, _ => []
  | fuel + 1, n =>
    if n = 0 then [] else n % 256 :: leBytesMinimalAux fuel (n / 256)

/-- Modelled from the spec: the "minimal-length little-endian integer push"
encoding that §4.B claims for voting powers and the threshold — base-256
digits least significant first, no trailing zero bytes, zero encoded as the
empty push. Stated only to compare against the source's `uint` encoding. -/
def leBytesMinimal (n : Nat) : List Nat :=
  leBytesMinimalAux n n

/-- Witness-script token, the alphabet of the ASM string assembled by
`createWitnessScript` before the external `script.fromASM` serializer. A hex
token becomes `push` of its bytes; opcode names become the matching opcode. -/
inductive ScriptTok where
  | push (bytes : List Nat)
  | opCheckSig
  | opIf
  | opElse
  | opEndIf
  | opSwap
  | opAdd
  | opGreaterThan
  | opZero
deriving DecidableEq, Repr

instance {ε α : Type} [DecidableEq ε] [DecidableEq α] : DecidableEq (Except ε α) := fun x y =>
  match x, y with
  | .error a, .error b =>
    if h : a = b then .isTrue (congrArg Except.error h)
    else .isFalse (fun hc => h (Except.error.inj hc))
  | .ok a, .ok b =>
    if h : a = b then .isTrue (congrArg Except.ok h)
    else .isFalse (fun hc => h (Except.ok.inj hc))
  | .error _, .ok _ => .isFalse (fun hc => Except.noConfusion hc)
  | .ok _, .error _ => .isFalse (fun hc => Except.noConfusion hc)

/-- Signatory as consumed by the script templates: committed secp256k1 pubkey
bytes plus voting power (`{ pubkey, votingPower }` in `reserve.ts`). -/
structure ScriptSignatory where
  pubkey : List Nat
  votingPower : Nat
deriving DecidableEq, Repr

/-- Lean embedding of the `firstSignatory` ASM template (reserve.ts). -/
def firstSignatory (s : ScriptSignatory) : Except String (List ScriptTok) :=
  match uint (s.votingPower : Int) with
  | .error e => .error e
  | .ok v =>
    .ok [.push s.pubkey, .opCheckSig, .opIf, .push v, .opElse, .opZero, .opEndIf]

/-- Lean embedding of the `nthSignatory` ASM template (reserve.ts). -/
def nthSignatory (s : ScriptSignatory) : Except String (List ScriptTok) :=
  match uint (s.votingPower : Int) with
  | .error e => .error e
  | .ok v =>
    .ok [.opSwap, .push s.pubkey, .opCheckSig, .opIf, .push v, .opAdd, .opEndIf]

/-- Lean embedding of the `compare` ASM template (reserve.ts); named
`compareOp` because `compare` collides with `Ord.compare`. -/
def compareOp (threshold : Nat) : Except String (List ScriptTok) :=
  match uint (threshold : Int) with
  | .error e => .error e
  | .ok v => .ok [.push v, .opGreaterThan]

/-- Tokens of `signatories.slice(1).map(nthSignatory).join(...)`, concatenated
in order, propagating the first `uint` failure. -/
def nthTokens : List ScriptSignatory → Except String (List ScriptTok)
  | [] => .ok []
  | s :: rest =>
    match nthSignatory s with
    | .error e => .error e
    | .ok a =>
      match nthTokens rest with
      | .error e => .error e
      | .ok b => .ok (a ++ b)

/-- Signatory list built at the top of `createWitnessScript` (reserve.ts):
the selector output restricted to validators that have a committed key in
`signatoryKeys`, each paired with that key. -/
def filteredSignatories (validators : List ValidatorEntry)
    (signatoryKeys : List (ValidatorKey × List Nat)) : List ScriptSignatory :=
  ((getSignatorySet validators).filter
      (fun s => (signatoryKeys.lookup s.validatorKey).isSome)).map
    (fun s =>
      { pubkey := (signatoryKeys.lookup s.validatorKey).getD []
        votingPower := s.votingPower })

/-- Lean embedding of `createWitnessScript` (reserve.ts) at the level of ASM
tokens (the external `script.fromASM` byte serializer is not modelled). On an
empty signatory list the source dereferences `signatories[0].pubkey` on
`undefined` and throws a `TypeError`; that is the first error case. -/
def createWitnessScript (validators : List ValidatorEntry)
    (signatoryKeys : List (ValidatorKey × List Nat)) : Except String (List ScriptTok) :=
  match filteredSignatories validators signatoryKeys with
  | [] => .error "TypeError: cannot read property pubkey of undefined"
  | s0 :: rest =>
    match firstSignatory s0 with
    | .error e => .error e
    | .ok first =>
      match nthTokens rest with
      | .error e => .error e
      | .ok mid =>
        match compareOp (getVotingPowerThreshold
            ((filteredSignatories validators signatoryKeys).map
              ScriptSignatory.votingPower)) with
        | .error e => .error e
        | .ok cmp => .ok (first ++ mid ++ cmp)

/-- C4 counterexample: the claim predicts `select {K1: 5, K2: 5} = [K2, K1]`
for `K1 < K2` byte-lexicographic (ties broken by key descending). With
`K1 = [65]`, `K2 = [66]` the source comparator returns `-1` for
`(K1, K2)` (it is `b.key < a.key ? 1 : -1` on ties), so `K1` sorts first and
the selector returns `[K1, K2]`, not `[K2, K1]`. -/
theorem c4_counterexample :
    ([65] : List Nat) < [66] ∧
    getSignatorySet [([65], 5), ([66], 5)] = [⟨[65], 5⟩, ⟨[66], 5⟩] ∧
    getSignatorySet [([65], 5), ([66], 5)] ≠ [⟨[66], 5⟩, ⟨[65], 5⟩] := by
  refine ⟨by decide, by decide, by decide⟩

/-- C4 (amended): the selector output is ordered by voting power descending
with ties broken by consensus key in ascending (not descending)
lexicographic order; on `{K1: 5, K2: 5}` with `K1 < K2` it returns
`[K1, K2]`. -/
theorem c4_selector_sorted (validators : List ValidatorEntry) :
    (getSignatorySet validators).Pairwise
      (fun a b => b.votingPower < a.votingPower ∨
        (a.votingPower = b.votingPower ∧ ¬ b.validatorKey < a.validatorKey)) := by
  have h := List.sorted_insertionSort signatoryBefore validators
  have hmap :
      ((List.insertionSort signatoryBefore validators).map
        (fun p : ValidatorEntry =>
          ({ validatorKey := p.1, votingPower := p.2 } : Signatory))).Pairwise
        (fun a b => b.votingPower < a.votingPower ∨
          (a.votingPower = b.votingPower ∧ ¬ b.validatorKey < a.validatorKey)) := by
    refine List.Pairwise.map _ ?_ h
    intro a b hab
    exact hab
  exact hmap.sublist (List.take_sublist _ _)

/-- C3 counterexample: the claim says the threshold pushed at the end of the
witness script is computed over the truncated selector output, "not over any
smaller subset". With validators `{A: 6, B: 3}` and a committed key for `A`
only, the source computes the threshold over the key-filtered signatories
(`ceil(2·6/3) = 4`), while the truncated selector output gives
`ceil(2·9/3) = 6`; the script ends with a push of `4`, not `6`. -/
theorem c3_counterexample :
    createWitnessScript [([65], 6), ([66], 3)] [([65], [2])] =
      .ok [.push [2], .opCheckSig, .opIf, .push [6], .opElse, .opZero, .opEndIf,
           .push [4], .opGreaterThan] ∧
    getVotingPowerThreshold
        ((getSignatorySet [([65], 6), ([66], 3)]).map Signatory.votingPower) = 6 ∧
    uint 6 = .ok [6] ∧
    ScriptTok.push [4] ≠ ScriptTok.push [6] := by
  refine ⟨by decide, by decide, by decide, by decide⟩

/-- C3 (amended): the threshold pushed at the end of the emitted witness
script is `ceil(2 · Σ voting_power / 3)` computed over the signatories that
remain after restricting the truncated selector output to validators with a
committed key — the key-filtered subset, not the full selector output. -/
theorem c3_threshold_over_committed_signatories
    (validators : List ValidatorEntry) (signatoryKeys : List (ValidatorKey × List Nat))
    (S : List ScriptTok)
    (h : createWitnessScript validators signatoryKeys = .ok S) :
    ∃ pre v, S = pre ++ [.push v, .opGreaterThan] ∧
      uint ((getVotingPowerThreshold
        ((filteredSignatories validators signatoryKeys).map
          ScriptSignatory.votingPower) : Nat) : Int) = .ok v := by
  unfold createWitnessScript at h
  split at h
  · simp at h
  · split at h
    · simp at h
    · split at h
      · simp at h
      · split at h
        · simp at h
        · rename_i cmp hcmp
          obtain rfl : _ ++ _ ++ cmp = S := Except.ok.inj h
          unfold compareOp at hcmp
          split at hcmp
          · simp at hcmp
          · rename_i v hv
            obtain rfl : [ScriptTok.push v, ScriptTok.opGreaterThan] = cmp :=
              Except.ok.inj hcmp
            exact ⟨_, v, rfl, hv⟩

/-- C3 witness: a two-signatory set where both validators committed keys; the
script ends with the threshold push `6 = ceil(2·(6+3)/3)` before
`OP_GREATERTHAN`. -/
theorem c3_witness :
    ∃ pre v,
      ([.push [2], .opCheckSig, .opIf, .push [6], .opElse, .opZero, .opEndIf,
        .opSwap, .push [3], .opCheckSig, .opIf, .push [3], .opAdd, .opEndIf,
        .push [6], .opGreaterThan] : List ScriptTok) = pre ++ [.push v, .opGreaterThan] ∧
      uint ((getVotingPowerThreshold
        ((filteredSignatories [([65], 6), ([66], 3)] [([65], [2]), ([66], [3])]).map
          ScriptSignatory.votingPower) : Nat) : Int) = .ok v :=
  c3_threshold_over_committed_signatories
    [([65], 6), ([66], 3)] [([65], [2]), ([66], [3])] _ (by decide)

/-- C9 counterexample: `uint` emits the big-endian even-length hex encoding,
not a minimal-length little-endian push: for the voting power `256` the
script carries the push `[0x01, 0x00]`, but the minimal little-endian
encoding of `256` is `[0x00, 0x01]`. Shown both on `uint` directly and on a
witness script whose only signatory has voting power `256` (its threshold
`ceil(2·256/3) = 171` fits in one byte). -/
theorem c9_counterexample :
    uint 256 = .ok [1, 0] ∧
    leBytesMinimal 256 = [0, 1] ∧
    ([1, 0] : List Nat) ≠ [0, 1] ∧
    createWitnessScript [([65], 256)] [([65], [2])] =
      .ok [.push [2], .opCheckSig, .opIf, .push [1, 0], .opElse, .opZero, .opEndIf,
           .push [171], .opGreaterThan] := by
  refine ⟨by decide, by decide, by decide, by decide⟩

/-- C9 (amended): every script number (voting powers and the threshold) is
encoded by `uint` as the big-endian bytes of its even-length hex rendering,
and every value outside `[0, 2^32)` (negative or too large) is rejected:
`uint` is totally characterized by this equation. -/
theorem c9_uint_encoding (n : Int) :
    uint n = if 0 ≤ n ∧ n < 4294967296 then .ok (beBytes n.toNat)
      else .error "Number must be >= 0 and < 2^32" := by
  unfold uint
  by_cases h : 0 ≤ n ∧ n < 4294967296
  · rw [if_neg (by omega), if_pos h]
  · rw [if_pos (by omega), if_neg h]

/-- Input UTXO of a `SigningTx` as consumed by `buildOutgoingTx`
(reserve.ts): outpoint plus satoshi amount. -/
structure SigningInput where
  txid : List Nat
  index : Nat
  amount : Int
deriving DecidableEq, Repr

/-- User withdrawal output of a `SigningTx`: script bytes plus satoshi
amount. -/
structure SigningOutput where
  script : List Nat
  amount : Int
deriving DecidableEq, Repr

/-- Built bitcoin transaction at the level `buildOutgoingTx` constructs it:
the outpoints added with `tx.addInput` and the outputs with their values
after fee apportionment (script serialization stays in the external
bitcoinjs library). -/
structure BuiltTx where
  ins : List (List Nat × Nat)
  outs : List SigningOutput
deriving DecidableEq, Repr

/-- Sum accumulated by the `totalAmount += amount` input loop. -/
def sumInputAmounts (l : List SigningInput) : Int :=
  (l.map SigningInput.amount).sum

/-- Sum of the satoshi values of a list of outputs. -/
def sumOutputAmounts (l : List SigningOutput) : Int :=
  (l.map SigningOutput.amount).sum

/-- User-output loop of `buildOutgoingTx` (reserve.ts): adds each output in
order while tracking `remainingAmount -= amount`, throwing the source's
message as soon as the remaining amount drops to `≤ 0`; returns the added
outputs and the final remaining amount. -/
def addUserOutputs (remaining : Int) :
    List SigningOutput → Except String (List SigningOutput × Int)
  | [] => .ok ([], remaining)
  | o :: rest =>
    if remaining - o.amount ≤ 0 then .error "Output amount exceeds input amount"
    else
      match addUserOutputs (remaining - o.amount) rest with
      | .error e => .error e
      | .ok (os, r) => .ok (o :: os, r)

/-- Fee-apportionment loop of `buildOutgoingTx` (reserve.ts): subtracts
`feeAmountPerWithdrawal` from every user output in order (the change output
has index `outputs.length` and is untouched), throwing the source's message
as soon as a value drops to `≤ 0`. -/
def paySubtract (feePer : Int) :
    List SigningOutput → Except String (List SigningOutput)
  | [] => .ok []
  | o :: rest =>
    if o.amount - feePer ≤ 0 then .error "Output is not large enough to pay fee"
    else
      match paySubtract feePer rest with
      | .error e => .error e
      | .ok os => .ok ({ script := o.script, amount := o.amount - feePer } :: os)

/-- JS `Math.ceil(a / b)` for the nonnegative fee and positive divisor it is
applied to; when `b = 0` the JS value (`Infinity`) is never used and this
model's value is likewise unused. -/
def ceilDiv (a : Int) (b : Nat) : Int := (a + b - 1) / b

/-- Lean embedding of `buildOutgoingTx` (reserve.ts). The change-output
script is produced by the in-repo `createOutput(validators, signatoryKeys,
network)`, i.e. `createWitnessScript` — whose failures (empty key-filtered
signatory set, out-of-range voting power) propagate — wrapped by the
external bitcoinjs `payments.p2wsh`, modelled by the `p2wsh` parameter.
`txLength` models the external `tx.byteLength()` — bitcoinjs serialization
does not depend on output values, so the length measured before fee
subtraction equals the final length. Steps, in source order: sum the inputs,
add user outputs (failing on exhausted funds), build the P2SS change script
and append the change output carrying the remaining amount, compute
`feeAmount = max(txLength, MIN_RELAY_FEE)` and `feeAmountPerWithdrawal =
ceil(feeAmount / outputs.length)`, subtract it from every user output
(failing on non-positive results). -/
def buildOutgoingTx (inputs : List SigningInput) (outputs : List SigningOutput)
    (validators : List ValidatorEntry)
    (signatoryKeys : List (ValidatorKey × List Nat))
    (p2wsh : List ScriptTok → List Nat) (txLength : Int) : Except String BuiltTx :=
  match addUserOutputs (sumInputAmounts inputs) outputs with
  | .error e => .error e
  | .ok (userOuts, remainingAmount) =>
    match createWitnessScript validators signatoryKeys with
    | .error e => .error e
    | .ok p2ss =>
      match paySubtract (ceilDiv (max txLength MIN_RELAY_FEE) outputs.length) userOuts with
      | .error e => .error e
      | .ok outs =>
        .ok { ins := inputs.map (fun i => (i.txid, i.index))
              outs := outs ++ [{ script := p2wsh p2ss, amount := remainingAmount }] }

theorem addUserOutputs_ok {rem : Int} {l os : List SigningOutput} {r : Int}
    (h : addUserOutputs rem l = .ok (os, r)) :
    os = l ∧ r = rem - sumOutputAmounts l := by
  induction l generalizing rem os with
  | nil =>
    simp only [addUserOutputs, Except.ok.injEq, Prod.mk.injEq] at h
    obtain ⟨rfl, rfl⟩ := h
    simp [sumOutputAmounts]
  | cons o rest ih =>
    unfold addUserOutputs at h
    split at h
    · simp at h
    · split at h
      · simp at h
      · rename_i os' r' hrec
        simp only [Except.ok.injEq, Prod.mk.injEq] at h
        obtain ⟨rfl, rfl⟩ := h
        obtain ⟨rfl, rfl⟩ := ih hrec
        refine ⟨rfl, ?_⟩
        simp only [sumOutputAmounts, List.map_cons, List.sum_cons]
        omega

theorem addUserOutputs_error (rem : Int) (l : List SigningOutput) (k : Nat)
    (hk : k < l.length) (hsum : rem ≤ sumOutputAmounts (l.take (k + 1))) :
    addUserOutputs rem l = .error "Output amount exceeds input amount" := by
  induction l generalizing rem k with
  | nil => simp at hk
  | cons o rest ih =>
    unfold addUserOutputs
    by_cases h0 : rem - o.amount ≤ 0
    · rw [if_pos h0]
    · rw [if_neg h0]
      have hk0 : k ≠ 0 := by
        rintro rfl
        simp only [List.take_succ_cons, List.take_zero, sumOutputAmounts,
          List.map_cons, List.map_nil, List.sum_cons, List.sum_nil] at hsum
        omega
      have hsum' : rem - o.amount ≤ sumOutputAmounts (rest.take (k - 1 + 1)) := by
        have : k - 1 + 1 = k := by omega
        rw [this]
        have : sumOutputAmounts ((o :: rest).take (k + 1)) =
            o.amount + sumOutputAmounts (rest.take k) := by
          simp [sumOutputAmounts, List.take_succ_cons]
        omega
      rw [ih (rem - o.amount) (k - 1) (by simp at hk; omega) hsum']

theorem paySubtract_ok {f : Int} {l os : List SigningOutput}
    (h : paySubtract f l = .ok os) :
    os = l.map (fun o => { script := o.script, amount := o.amount - f }) := by
  induction l generalizing os with
  | nil =>
    simp only [paySubtract, Except.ok.injEq] at h
    simp [← h]
  | cons o rest ih =>
    unfold paySubtract at h
    split at h
    · simp at h
    · split at h
      · simp at h
      · rename_i os' hrec
        simp only [Except.ok.injEq] at h
        subst h
        rw [ih hrec]
        simp

theorem sumOutputAmounts_map_sub (f : Int) (l : List SigningOutput) :
    sumOutputAmounts (l.map (fun o => { script := o.script, amount := o.amount - f })) =
      sumOutputAmounts l - l.length * f := by
  induction l with
  | nil => simp [sumOutputAmounts]
  | cons o rest ih =>
    simp only [List.map_cons, sumOutputAmounts, List.sum_cons, List.length_cons] at *
    push_cast
    rw [ih]
    ring

theorem sumOutputAmounts_append (a b : List SigningOutput) :
    sumOutputAmounts (a ++ b) = sumOutputAmounts a + sumOutputAmounts b := by
  simp [sumOutputAmounts]

theorem le_mul_ceilDiv (a : Int) (n : Nat) (hn : 1 ≤ n) :
    a ≤ n * ceilDiv a n := by
  unfold ceilDiv
  have hb : (0 : Int) < (n : Int) := by exact_mod_cast hn
  have h1 := Int.ediv_add_emod (a + n - 1) n
  have h2 := Int.emod_lt_of_pos (a + n - 1) hb
  have h3 := Int.emod_nonneg (a + n - 1) (by omega : (n : Int) ≠ 0)
  set q := (a + (n : Int) - 1) / (n : Int) with hq
  set r := (a + (n : Int) - 1) % (n : Int) with hr
  set t := (n : Int) * q with ht
  omega

/-- C5 counterexample: the claim quantifies over "any number of user
outputs", but with zero user outputs the fee loop body never runs, so a
successfully built disbursal pays zero fee — less than
`MIN_RELAY_FEE = 1000`. Inputs summing to 5000 sat and no user outputs build
successfully with a single change output of 5000 sat and `fee_paid = 0`. -/
theorem c5_counterexample :
    buildOutgoingTx [{ txid := [1], index := 0, amount := 5000 }] []
      [([65], 1)] [([65], [2])] (fun _ => [9]) 100 =
      .ok { ins := [([1], 0)], outs := [{ script := [9], amount := 5000 }] } ∧
    sumInputAmounts [{ txid := [1], index := 0, amount := 5000 }] -
      sumOutputAmounts [{ script := [9], amount := 5000 }] = 0 ∧
    ¬ MIN_RELAY_FEE ≤ (0 : Int) := by
  refine ⟨by decide, by decide, by decide⟩

/-- C5 (amended): for every successfully built disbursal with at least one
input and at least one user output, the input sum equals the output sum plus
the fee actually paid, and that fee is at least `MIN_RELAY_FEE = 1000` and
at least the transaction's byte length. -/
theorem c5_fee_conservation (inputs : List SigningInput)
    (outputs : List SigningOutput) (validators : List ValidatorEntry)
    (signatoryKeys : List (ValidatorKey × List Nat))
    (p2wsh : List ScriptTok → List Nat) (txLength : Int)
    (tx : BuiltTx) (hn : outputs ≠ [])
    (h : buildOutgoingTx inputs outputs validators signatoryKeys p2wsh txLength =
      .ok tx) :
    sumInputAmounts inputs =
      sumOutputAmounts tx.outs + (sumInputAmounts inputs - sumOutputAmounts tx.outs) ∧
    MIN_RELAY_FEE ≤ sumInputAmounts inputs - sumOutputAmounts tx.outs ∧
    txLength ≤ sumInputAmounts inputs - sumOutputAmounts tx.outs := by
  unfold buildOutgoingTx at h
  split at h
  · simp at h
  · split at h
    · simp at h
    · split at h
      · simp at h
      · rename_i x1 userOuts remainingAmount hadd x2 p2ss hscript x3 outs hpay
        obtain rfl := (Except.ok.inj h).symm
        obtain ⟨rfl, rfl⟩ := addUserOutputs_ok hadd
        obtain rfl := paySubtract_ok hpay
        have hlen : 1 ≤ userOuts.length := List.length_pos.mpr hn
        have hfee : sumInputAmounts inputs -
            sumOutputAmounts ((userOuts.map
              (fun o => { script := o.script
                          amount := o.amount -
                            ceilDiv (max txLength MIN_RELAY_FEE) userOuts.length })) ++
              [{ script := p2wsh p2ss
                 amount := sumInputAmounts inputs - sumOutputAmounts userOuts }]) =
            userOuts.length * ceilDiv (max txLength MIN_RELAY_FEE) userOuts.length := by
          rw [sumOutputAmounts_append, sumOutputAmounts_map_sub]
          simp [sumOutputAmounts]
        have hge := le_mul_ceilDiv (max txLength MIN_RELAY_FEE) userOuts.length hlen
        refine ⟨by ring, ?_, ?_⟩
        · rw [hfee]; exact le_trans (le_max_right _ _) hge
        · rw [hfee]; exact le_trans (le_max_left _ _) hge

/-- C5 witness: one input of 20000 sat and one user output of 5000 sat; the
built transaction conserves value and pays a fee of at least
`max(txLength, 1000)`. -/
theorem c5_witness :
    sumInputAmounts [{ txid := [1], index := 0, amount := 20000 }] =
      sumOutputAmounts [{ script := [2], amount := 4000 },
        { script := [9], amount := 15000 }] +
        (sumInputAmounts [{ txid := [1], index := 0, amount := 20000 }] -
          sumOutputAmounts [{ script := [2], amount := 4000 },
            { script := [9], amount := 15000 }]) ∧
    MIN_RELAY_FEE ≤ sumInputAmounts [{ txid := [1], index := 0, amount := 20000 }] -
      sumOutputAmounts [{ script := [2], amount := 4000 },
        { script := [9], amount := 15000 }] ∧
    (200 : Int) ≤ sumInputAmounts [{ txid := [1], index := 0, amount := 20000 }] -
      sumOutputAmounts [{ script := [2], amount := 4000 },
        { script := [9], amount := 15000 }] :=
  c5_fee_conservation [{ txid := [1], index := 0, amount := 20000 }]
    [{ script := [2], amount := 5000 }] [([65], 1)] [([65], [2])]
    (fun _ => [9]) 200
    { ins := [([1], 0)]
      outs := [{ script := [2], amount := 4000 },
        { script := [9], amount := 15000 }] }
    (by decide) (by decide)

/-- C7: in the user-output loop, whenever the running remaining amount
(total input minus the user amounts added so far) would become `≤ 0` at some
output — i.e. some prefix of the user outputs already sums to at least the
total input — the build fails with the source's insufficient-funds error. -/
theorem c7_insufficient_funds (inputs : List SigningInput)
    (outputs : List SigningOutput) (validators : List ValidatorEntry)
    (signatoryKeys : List (ValidatorKey × List Nat))
    (p2wsh : List ScriptTok → List Nat) (txLength : Int)
    (k : Nat) (hk : k < outputs.length)
    (hsum : sumInputAmounts inputs ≤ sumOutputAmounts (outputs.take (k + 1))) :
    buildOutgoingTx inputs outputs validators signatoryKeys p2wsh txLength =
      .error "Output amount exceeds input amount" := by
  unfold buildOutgoingTx
  rw [addUserOutputs_error (sumInputAmounts inputs) outputs k hk hsum]

/-- C7 witness: inputs summing to `10^4` satoshis with a single user output
of `10^4` satoshis fail with the insufficient-funds error (the throw happens
in the user-output loop, before the change script is even built). -/
theorem c7_witness :
    buildOutgoingTx [{ txid := [1], index := 0, amount := 10000 }]
      [{ script := [2], amount := 10000 }] [] [] (fun _ => [0]) 100 =
      .error "Output amount exceeds input amount" :=
  c7_insufficient_funds [{ txid := [1], index := 0, amount := 10000 }]
    [{ script := [2], amount := 10000 }] [] [] (fun _ => [0]) 100 0
    (by decide) (by decide)

/-- C10 counterexample: the claim promises success for every SigningTx with
an empty user-output list and positive input sum, but the builder also calls
the in-repo change-script construction (`createOutput`, reserve.ts line
162), which throws when the key-filtered signatory set is empty — e.g. in
the initial state, where no signatory keys are committed. A 7-satoshi input
with no user outputs and an empty committed-key registry fails instead of
succeeding. -/
theorem c10_counterexample :
    0 < sumInputAmounts [{ txid := [1], index := 0, amount := 7 }] ∧
    buildOutgoingTx [{ txid := [1], index := 0, amount := 7 }] [] [] []
      (fun _ => [0]) 2 =
      .error "TypeError: cannot read property pubkey of undefined" := by
  refine ⟨by decide, by decide⟩

/-- C10 (amended): with an empty user-output list and inputs of positive
total, provided the P2SS witness-script construction for the current
validators and committed keys succeeds, the builder succeeds and returns a
transaction whose single output is the change output carrying the entire
input sum — no fee is deducted from anything. -/
theorem c10_no_outputs_change_only (inputs : List SigningInput)
    (validators : List ValidatorEntry)
    (signatoryKeys : List (ValidatorKey × List Nat))
    (p2wsh : List ScriptTok → List Nat) (txLength : Int) (p2ss : List ScriptTok)
    (hscript : createWitnessScript validators signatoryKeys = .ok p2ss)
    (_hpos : 0 < sumInputAmounts inputs) :
    buildOutgoingTx inputs [] validators signatoryKeys p2wsh txLength =
      .ok { ins := inputs.map (fun i => (i.txid, i.index))
            outs := [{ script := p2wsh p2ss, amount := sumInputAmounts inputs }] } := by
  simp [buildOutgoingTx, addUserOutputs, hscript, paySubtract]

/-- C10 witness: a single 7-satoshi input, no user outputs, one committed
signatory — the change output carries the full 7 satoshis. -/
theorem c10_witness :
    buildOutgoingTx [{ txid := [1], index := 0, amount := 7 }] []
      [([65], 1)] [([65], [2])] (fun _ => [9]) 2 =
      .ok { ins := [([1], 0)], outs := [{ script := [9], amount := 7 }] } :=
  c10_no_outputs_change_only [{ txid := [1], index := 0, amount := 7 }]
    [([65], 1)] [([65], [2])] (fun _ => [9]) 2
    [.push [2], .opCheckSig, .opIf, .push [1], .opElse, .opZero, .opEndIf,
     .push [1], .opGreaterThan] (by decide) (by decide)

/-- Bitcoin block header as kept in the replicated header chain; only the
fields the handlers read are modelled. -/
structure Header where
  height : Nat
  merkleRoot : List Nat
deriving DecidableEq, Repr

/-- Output of a decoded bitcoin transaction: script bytes and satoshi
amount. -/
structure BtcOutput where
  script : List Nat
  amount : Int
deriving DecidableEq, Repr

/-- Decoded bitcoin transaction (the external
`protocol.types.transaction.decode` produced it from the submitted raw
bytes); only the outputs are read by the handlers. -/
structure BtcTx where
  outs : List BtcOutput
deriving DecidableEq, Repr

/-- UTXO collected from a verified deposit: txid, output index, satoshi
amount and the P2SS output script it pays (spec §3). -/
structure Utxo where
  txid : List Nat
  vout : Nat
  amount : Int
  address : List Nat
deriving DecidableEq, Repr

/-- Replicated module state written by `initializer` (src/index.js):
header chain, committed signatory keys, processed deposit txids and
collected UTXOs. The extra field `trackedAddresses` is modelled from the
spec: the currently-tracked P2SS output scripts (current address plus
history, spec §3 and §4.G), which the snapshot's `index.js` does not yet
maintain (marked TODO there). -/
structure PegState where
  chain : List Header
  signatoryKeys : List (ValidatorKey × List Nat)
  processedTxs : List (List Nat)
  utxos : List Utxo
  trackedAddresses : List (List Nat)
deriving DecidableEq, Repr

/-- Lean embedding of `initializer` (src/index.js). -/
def initializer (initialHeader : Header) : PegState :=
  { chain := [initialHeader]
    signatoryKeys := []
    processedTxs := []
    utxos := []
    trackedAddresses := [] }

/-- Deposit transaction payload: the decoded bitcoin transaction, the proof's
block height, and the proof's remaining data (sibling hashes and index
bitmap), which only the external verifier interprets. -/
structure DepositPayload where
  transaction : BtcTx
  proofHeight : Nat
  proofData : List Nat
deriving DecidableEq, Repr

/-- Header lookup `chain.getByHeight(height)` of the external
`blockchain-spv` store: the header at the requested height, or a thrown
error when the chain has none. -/
def getByHeight (chain : List Header) (height : Nat) : Except String Header :=
  match chain.find? (fun h => h.height == height) with
  | some h => .ok h
  | none => .error "header not found"

/-- Modelled from the spec: the deposit's recipient commitment (spec §4.D
step 6, marked TODO in src/index.js) is read from the transaction's second
output, whose script is `1 byte length | address bytes`; a missing or
ill-formed commitment yields `none`. -/
def getCommitment (tx : BtcTx) : Option (List Nat) :=
  match tx.outs[1]? with
  | none => none
  | some o =>
    match o.script with
    | [] => none
    | len :: addr => if addr.length = len then some addr else none

/-- Modelled from the spec: the first output paying a currently-tracked P2SS
address (spec §4.D step 5, marked TODO in src/index.js), with its output
index. -/
def findPayingOutput (tracked : List (List Nat)) (tx : BtcTx) :
    Option (Nat × BtcOutput) :=
  tx.outs.enum.find? (fun p => tracked.contains p.2.script)

/-- Lean embedding of `depositTx` (src/index.js), completed where the source
marks TODOs. `getTxHash` models the external transaction hasher
(bitcoin-net) and `verifyMerkleProof` the external `bitcoin-merkle-proof`
verifier, called with the merkle root the handler copies from the stored
header; `depositFee` is the peg's deposit fee. Source-order steps: compute
the txid, reject already-processed txids, record the txid in the draft
state, look up the header at the proof height, verify the Merkle proof
against that header's root, require exactly one proven txid equal to the
computed txid. The remaining steps are modelled from the spec §4.D (they are
marked TODO in the source): require an output paying a tracked P2SS address
(else `NotPeggedPayment`), require a recipient commitment (else
`MissingCommitment`), then collect the paying output as a UTXO and return
the `mint(recipient, amount - depositFee)` event for the coin ledger. -/
def depositTx (getTxHash : BtcTx → List Nat)
    (verifyMerkleProof : List Nat → List Nat → Except String (List (List Nat)))
    (depositFee : Int) (s : PegState) (d : DepositPayload) :
    Except String (PegState × (List Nat × Int)) :=
  if s.processedTxs.contains (getTxHash d.transaction) then
    .error "Deposit transaction has already been processed"
  else
    let s1 : PegState :=
      { s with processedTxs := getTxHash d.transaction :: s.processedTxs }
    match getByHeight s1.chain d.proofHeight with
    | .error e => .error e
    | .ok header =>
      match verifyMerkleProof header.merkleRoot d.proofData with
      | .error e => .error e
      | .ok txids =>
        if txids.length ≠ 1 then .error "Expected exactly one txid included in proof"
        else if txids[0]? ≠ some (getTxHash d.transaction) then
          .error "Merkle proof does not match given transaction"
        else
          match findPayingOutput s1.trackedAddresses d.transaction with
          | none => .error "Deposit transaction does not pay to the signatory set"
          | some (vout, o) =>
            match getCommitment d.transaction with
            | none => .error "Deposit transaction does not commit to a recipient address"
            | some recipient =>
              .ok ({ s1 with
                      utxos := s1.utxos ++
                        [{ txid := getTxHash d.transaction, vout := vout
                           amount := o.amount, address := o.script }] },
                   (recipient, o.amount - depositFee))

/-- Transactional application of the deposit handler by the consensus
runtime (lotion): the handler's draft mutations commit only when it returns
without throwing; a thrown error rejects the transaction and the replicated
state stays the prior state (spec §7: all errors are local rejections). -/
def applyDepositTx (getTxHash : BtcTx → List Nat)
    (verifyMerkleProof : List Nat → List Nat → Except String (List (List Nat)))
    (depositFee : Int) (s : PegState) (d : DepositPayload) : PegState :=
  match depositTx getTxHash verifyMerkleProof depositFee s d with
  | .ok (s', _) => s'
  | .error _ => s

/-- C1: a deposit whose Merkle proof fails to verify against the stored
header's merkle root at the given height (having passed the replay check) is
rejected — the handler rethrows the verifier's error — and the replicated
state after the rejected transaction equals the state before it; in
particular the processed-tx set, UTXO list and header chain are unchanged. -/
theorem c1_bad_proof_state_unchanged (getTxHash : BtcTx → List Nat)
    (verifyMerkleProof : List Nat → List Nat → Except String (List (List Nat)))
    (depositFee : Int) (s : PegState) (d : DepositPayload) (hdr : Header)
    (e : String)
    (hfresh : s.processedTxs.contains (getTxHash d.transaction) = false)
    (hhdr : getByHeight s.chain d.proofHeight = .ok hdr)
    (hbad : verifyMerkleProof hdr.merkleRoot d.proofData = .error e) :
    depositTx getTxHash verifyMerkleProof depositFee s d = .error e ∧
    applyDepositTx getTxHash verifyMerkleProof depositFee s d = s := by
  have hfresh' : getTxHash d.transaction ∉ s.processedTxs := by
    simpa using hfresh
  have hd : depositTx getTxHash verifyMerkleProof depositFee s d = .error e := by
    simp [depositTx, hfresh', hhdr, hbad]
  refine ⟨hd, ?_⟩
  unfold applyDepositTx
  rw [hd]

/-- C1 witness: a concrete deposit whose external Merkle verification fails
is rejected with that error and leaves the state untouched. -/
theorem c1_witness :
    depositTx (fun _ => [7]) (fun _ _ => .error "bad proof") 0
      { chain := [{ height := 0, merkleRoot := [9] }], signatoryKeys := [],
        processedTxs := [], utxos := [], trackedAddresses := [] }
      { transaction := { outs := [] }, proofHeight := 0, proofData := [] } =
      .error "bad proof" ∧
    applyDepositTx (fun _ => [7]) (fun _ _ => .error "bad proof") 0
      { chain := [{ height := 0, merkleRoot := [9] }], signatoryKeys := [],
        processedTxs := [], utxos := [], trackedAddresses := [] }
      { transaction := { outs := [] }, proofHeight := 0, proofData := [] } =
      { chain := [{ height := 0, merkleRoot := [9] }], signatoryKeys := [],
        processedTxs := [], utxos := [], trackedAddresses := [] } :=
  c1_bad_proof_state_unchanged (fun _ => [7]) (fun _ _ => .error "bad proof") 0
    { chain := [{ height := 0, merkleRoot := [9] }], signatoryKeys := [],
      processedTxs := [], utxos := [], trackedAddresses := [] }
    { transaction := { outs := [] }, proofHeight := 0, proofData := [] }
    { height := 0, merkleRoot := [9] } "bad proof" rfl rfl rfl

/-- C2 (payment, commitment and side-effect steps modelled from the spec,
being TODO in src/index.js): once a deposit passes the replay, header and
Merkle checks, the verifier behaves exactly as follows — a transaction with
no output paying a tracked P2SS address fails with the `NotPeggedPayment`
rejection; one without a recipient commitment fails with the
`MissingCommitment` rejection; otherwise the deposit is accepted, the txid
is inserted into the processed set, the paying output is appended as a UTXO,
and the mint event `(recipient, amount − depositFee)` is emitted. -/
theorem c2_deposit_verifier (getTxHash : BtcTx → List Nat)
    (verifyMerkleProof : List Nat → List Nat → Except String (List (List Nat)))
    (depositFee : Int) (s : PegState) (d : DepositPayload) (hdr : Header)
    (hfresh : s.processedTxs.contains (getTxHash d.transaction) = false)
    (hhdr : getByHeight s.chain d.proofHeight = .ok hdr)
    (hver : verifyMerkleProof hdr.merkleRoot d.proofData =
      .ok [getTxHash d.transaction]) :
    depositTx getTxHash verifyMerkleProof depositFee s d =
      match findPayingOutput s.trackedAddresses d.transaction with
      | none => .error "Deposit transaction does not pay to the signatory set"
      | some (vout, o) =>
        match getCommitment d.transaction with
        | none => .error "Deposit transaction does not commit to a recipient address"
        | some recipient =>
          .ok ({ s with
                  processedTxs := getTxHash d.transaction :: s.processedTxs
                  utxos := s.utxos ++
                    [{ txid := getTxHash d.transaction, vout := vout
                       amount := o.amount, address := o.script }] },
               (recipient, o.amount - depositFee)) := by
  have hfresh' : getTxHash d.transaction ∉ s.processedTxs := by
    simpa using hfresh
  cases hfind : findPayingOutput s.trackedAddresses d.transaction with
  | none => simp [depositTx, hfresh', hhdr, hver, hfind]
  | some p =>
    obtain ⟨vout, o⟩ := p
    cases hcom : getCommitment d.transaction with
    | none => simp [depositTx, hfresh', hhdr, hver, hfind, hcom]
    | some recipient => simp [depositTx, hfresh', hhdr, hver, hfind, hcom]

/-- C2 witness: a concrete accepted deposit of 100 sat to the tracked P2SS
script `[5]`, committing to the recipient `[8]` with deposit fee 1: the txid
is recorded, the paying output becomes a UTXO, and `mint([8], 99)` is
emitted. -/
theorem c2_witness :
    depositTx (fun _ => [7]) (fun _ _ => .ok [[7]]) 1
      { chain := [{ height := 0, merkleRoot := [9] }], signatoryKeys := [],
        processedTxs := [], utxos := [], trackedAddresses := [[5]] }
      { transaction := { outs := [{ script := [5], amount := 100 },
          { script := [1, 8], amount := 0 }] }, proofHeight := 0, proofData := [] } =
      .ok ({ chain := [{ height := 0, merkleRoot := [9] }], signatoryKeys := [],
             processedTxs := [[7]],
             utxos := [{ txid := [7], vout := 0, amount := 100, address := [5] }],
             trackedAddresses := [[5]] }, ([8], 99)) :=
  c2_deposit_verifier (fun _ => [7]) (fun _ _ => .ok [[7]]) 1
    { chain := [{ height := 0, merkleRoot := [9] }], signatoryKeys := [],
      processedTxs := [], utxos := [], trackedAddresses := [[5]] }
    { transaction := { outs := [{ script := [5], amount := 100 },
        { script := [1, 8], amount := 0 }] }, proofHeight := 0, proofData := [] }
    { height := 0, merkleRoot := [9] } rfl rfl rfl

/-- C6: when a deposit is accepted from state `s`, resubmitting the same
deposit to the resulting state fails with the already-processed rejection,
the UTXO list has grown by exactly one entry, and applying both submissions
in sequence yields the state of the first acceptance — the UTXO list grows
by one, not two. -/
theorem c6_deposit_uniqueness (getTxHash : BtcTx → List Nat)
    (verifyMerkleProof : List Nat → List Nat → Except String (List (List Nat)))
    (depositFee : Int) (s : PegState) (d : DepositPayload) (s' : PegState)
    (m : List Nat × Int)
    (h : depositTx getTxHash verifyMerkleProof depositFee s d = .ok (s', m)) :
    depositTx getTxHash verifyMerkleProof depositFee s' d =
      .error "Deposit transaction has already been processed" ∧
    s'.utxos.length = s.utxos.length + 1 ∧
    applyDepositTx getTxHash verifyMerkleProof depositFee
      (applyDepositTx getTxHash verifyMerkleProof depositFee s d) d = s' := by
  have h0 := h
  simp only [depositTx] at h
  split at h
  · simp at h
  · split at h
    · simp at h
    · split at h
      · simp at h
      · split at h
        · simp at h
        · split at h
          · simp at h
          · split at h
            · simp at h
            · split at h
              · simp at h
              · simp only [Except.ok.injEq, Prod.mk.injEq] at h
                obtain ⟨hs, hm⟩ := h
                have h1 : applyDepositTx getTxHash verifyMerkleProof depositFee s d = s' := by
                  unfold applyDepositTx
                  rw [h0]
                have hsecond : depositTx getTxHash verifyMerkleProof depositFee s' d =
                    .error "Deposit transaction has already been processed" := by
                  rw [← hs]
                  simp [depositTx]
                refine ⟨hsecond, ?_, ?_⟩
                · rw [← hs]
                  simp
                · rw [h1]
                  unfold applyDepositTx
                  rw [hsecond]

/-- C6 witness: submitting the concrete deposit of the C2 scenario twice —
the second submission is rejected as already processed and the final state
holds exactly one more UTXO than the initial (empty) list. -/
theorem c6_witness :
    depositTx (fun _ => [7]) (fun _ _ => .ok [[7]]) 1
      { chain := [{ height := 0, merkleRoot := [9] }], signatoryKeys := [],
        processedTxs := [[7]],
        utxos := [{ txid := [7], vout := 0, amount := 100, address := [5] }],
        trackedAddresses := [[5]] }
      { transaction := { outs := [{ script := [5], amount := 100 },
          { script := [1, 8], amount := 0 }] }, proofHeight := 0, proofData := [] } =
      .error "Deposit transaction has already been processed" ∧
    ([{ txid := [7], vout := 0, amount := 100, address := [5] }] : List Utxo).length =
      ([] : List Utxo).length + 1 ∧
    applyDepositTx (fun _ => [7]) (fun _ _ => .ok [[7]]) 1
      (applyDepositTx (fun _ => [7]) (fun _ _ => .ok [[7]]) 1
        { chain := [{ height := 0, merkleRoot := [9] }], signatoryKeys := [],
          processedTxs := [], utxos := [], trackedAddresses := [[5]] }
        { transaction := { outs := [{ script := [5], amount := 100 },
            { script := [1, 8], amount := 0 }] }, proofHeight := 0, proofData := [] })
      { transaction := { outs := [{ script := [5], amount := 100 },
          { script := [1, 8], amount := 0 }] }, proofHeight := 0, proofData := [] } =
      { chain := [{ height := 0, merkleRoot := [9] }], signatoryKeys := [],
        processedTxs := [[7]],
        utxos := [{ txid := [7], vout := 0, amount := 100, address := [5] }],
        trackedAddresses := [[5]] } :=
  c6_deposit_uniqueness (fun _ => [7]) (fun _ _ => .ok [[7]]) 1
    { chain := [{ height := 0, merkleRoot := [9] }], signatoryKeys := [],
      processedTxs := [], utxos := [], trackedAddresses := [[5]] }
    { transaction := { outs := [{ script := [5], amount := 100 },
        { script := [1, 8], amount := 0 }] }, proofHeight := 0, proofData := [] }
    { chain := [{ height := 0, merkleRoot := [9] }], signatoryKeys := [],
      processedTxs := [[7]],
      utxos := [{ txid := [7], vout := 0, amount := 100, address := [5] }],
      trackedAddresses := [[5]] }
    ([8], 99) (by rfl)

/-- Constant `SIGNATORY_KEY_LENGTH` from src/index.js. -/
def SIGNATORY_KEY_LENGTH : Nat := 33

/-- Constant `SIGNATURE_LENGTH` from src/index.js (ed25519). -/
def SIGNATURE_LENGTH : Nat := 64

/-- SignatoryKey transaction payload `(signatoryIndex, signatoryKey,
signature)` of src/index.js; the dynamic `Number.isInteger` and
`Buffer.isBuffer` guards are subsumed by the field types. -/
structure SignatoryKeyPayload where
  signatoryIndex : Int
  signatoryKey : List Nat
  signature : List Nat
deriving DecidableEq, Repr

/-- JS array indexing with an integer index: `undefined` (here `none`) for
negative or out-of-range indices. -/
def listGetInt {α : Type} (l : List α) (i : Int) : Option α :=
  if i < 0 then none else l[i.toNat]?

/-- Object assignment `m[k] = v` on a JS object modelled as an
insertion-ordered association list: update in place when the key exists,
append otherwise. -/
def setKey (m : List (ValidatorKey × List Nat)) (k : ValidatorKey) (v : List Nat) :
    List (ValidatorKey × List Nat) :=
  if (m.lookup k).isSome then m.map (fun p => if p.1 = k then (k, v) else p)
  else m ++ [(k, v)]

/-- Lean embedding of `signatoryKeyTx` (src/index.js). `ed25519Verify` models
the external `supercop.verify`, taking the signature, the message (the
committed signatory key) and the validator's consensus key (which the source
holds base64-encoded and decodes before the call). Checks, in source order:
the signatory key must be `SIGNATORY_KEY_LENGTH` bytes and the signature
`SIGNATURE_LENGTH` bytes (the source throws the same message for both); an
out-of-range `signatoryIndex` makes the source dereference `.validatorKey`
on `undefined`, throwing a `TypeError` (the source's `== null` guard on the
key can never fire); a failed ed25519 verification throws; otherwise the key
is written into the committed-key registry under the validator's key,
overwriting any previous commitment. No secp256k1 point-validity check is
performed. -/
def signatoryKeyTx (ed25519Verify : List Nat → List Nat → ValidatorKey → Bool)
    (validators : List ValidatorEntry) (s : PegState)
    (tx : SignatoryKeyPayload) : Except String PegState :=
  if tx.signatoryKey.length ≠ SIGNATORY_KEY_LENGTH then
    .error "Invalid signatory key length"
  else if tx.signature.length ≠ SIGNATURE_LENGTH then
    .error "Invalid signatory key length"
  else
    match listGetInt (getSignatorySet validators) tx.signatoryIndex with
    | none => .error "TypeError: cannot read property validatorKey of undefined"
    | some sg =>
      if ed25519Verify tx.signature tx.signatoryKey sg.validatorKey = false then
        .error "Invalid signature"
      else
        .ok { s with
                signatoryKeys := setKey s.signatoryKeys sg.validatorKey tx.signatoryKey }

/-- Transactional application of the signatory-key handler by the consensus
runtime (lotion): commit on success, keep the prior state on a thrown
error. -/
def applySignatoryKeyTx (ed25519Verify : List Nat → List Nat → ValidatorKey → Bool)
    (validators : List ValidatorEntry) (s : PegState)
    (tx : SignatoryKeyPayload) : PegState :=
  match signatoryKeyTx ed25519Verify validators s tx with
  | .ok s' => s'
  | .error _ => s

/-- C8 counterexample: the claim says a 33-byte key that does not decode as
a valid compressed secp256k1 point is rejected with a key-format error,
without altering the registry. The key of 33 zero bytes is not a valid
compressed point (a compressed encoding starts with byte `2` or `3`), and
the admitter performs no point-validity check at all: with a valid ed25519
signature (the verifier is instantiated to accept) the transaction is
accepted and the key is written into the previously-empty registry. -/
theorem c8_counterexample :
    (List.replicate 33 0).length = SIGNATORY_KEY_LENGTH ∧
    signatoryKeyTx (fun _ _ _ => true) [([86], 1)]
      { chain := [], signatoryKeys := [], processedTxs := [], utxos := [],
        trackedAddresses := [] }
      { signatoryIndex := 0, signatoryKey := List.replicate 33 0,
        signature := List.replicate 64 0 } =
      .ok { chain := [], signatoryKeys := [([86], List.replicate 33 0)],
            processedTxs := [], utxos := [], trackedAddresses := [] } ∧
    ([([86], List.replicate 33 0)] : List (ValidatorKey × List Nat)) ≠ [] := by
  refine ⟨by decide, by decide, by decide⟩

/-- C8 (amended): the key-registry admitter checks only the key's length
(rejecting non-33-byte keys with the key-length error, leaving state
unchanged) and the ed25519 signature; it does not validate secp256k1
curve-point decoding, so any 33-byte key with a 64-byte valid signature at a
valid signatory index is accepted and written into the registry. -/
theorem c8_registry_admitter
    (ed25519Verify : List Nat → List Nat → ValidatorKey → Bool)
    (validators : List ValidatorEntry) (s : PegState)
    (tx : SignatoryKeyPayload) :
    (tx.signatoryKey.length ≠ SIGNATORY_KEY_LENGTH →
      signatoryKeyTx ed25519Verify validators s tx =
        .error "Invalid signatory key length" ∧
      applySignatoryKeyTx ed25519Verify validators s tx = s) ∧
    (∀ sg : Signatory, tx.signatoryKey.length = SIGNATORY_KEY_LENGTH →
      tx.signature.length = SIGNATURE_LENGTH →
      listGetInt (getSignatorySet validators) tx.signatoryIndex = some sg →
      ed25519Verify tx.signature tx.signatoryKey sg.validatorKey = true →
      signatoryKeyTx ed25519Verify validators s tx =
        .ok { s with
                signatoryKeys := setKey s.signatoryKeys sg.validatorKey
                  tx.signatoryKey }) := by
  constructor
  · intro hlen
    have herr : signatoryKeyTx ed25519Verify validators s tx =
        .error "Invalid signatory key length" := by
      simp [signatoryKeyTx, hlen]
    refine ⟨herr, ?_⟩
    unfold applySignatoryKeyTx
    rw [herr]
  · intro sg h1 h2 h3 h4
    simp [signatoryKeyTx, h1, h2, h3, h4]

/-- C8 witness: a 32-byte key is rejected with the key-length error and the
state is unchanged; a 33-byte key with valid signature at index 0 is
accepted and recorded. -/
theorem c8_witness :
    (signatoryKeyTx (fun _ _ _ => true) [([86], 1)]
        { chain := [], signatoryKeys := [], processedTxs := [], utxos := [],
          trackedAddresses := [] }
        { signatoryIndex := 0, signatoryKey := List.replicate 32 0,
          signature := List.replicate 64 0 } =
        .error "Invalid signatory key length" ∧
      applySignatoryKeyTx (fun _ _ _ => true) [([86], 1)]
        { chain := [], signatoryKeys := [], processedTxs := [], utxos := [],
          trackedAddresses := [] }
        { signatoryIndex := 0, signatoryKey := List.replicate 32 0,
          signature := List.replicate 64 0 } =
        { chain := [], signatoryKeys := [], processedTxs := [], utxos := [],
          trackedAddresses := [] }) ∧
    signatoryKeyTx (fun _ _ _ => true) [([86], 1)]
      { chain := [], signatoryKeys := [], processedTxs := [], utxos := [],
        trackedAddresses := [] }
      { signatoryIndex := 0, signatoryKey := List.replicate 33 2,
        signature := List.replicate 64 0 } =
      .ok { chain := [], signatoryKeys := setKey [] [86] (List.replicate 33 2),
            processedTxs := [], utxos := [], trackedAddresses := [] } :=
  ⟨(c8_registry_admitter (fun _ _ _ => true) [([86], 1)]
      { chain := [], signatoryKeys := [], processedTxs := [], utxos := [],
        trackedAddresses := [] }
      { signatoryIndex := 0, signatoryKey := List.replicate 32 0,
        signature := List.replicate 64 0 }).1 (by decide),
   (c8_registry_admitter (fun _ _ _ => true) [([86], 1)]
      { chain := [], signatoryKeys := [], processedTxs := [], utxos := [],
        trackedAddresses := [] }
      { signatoryIndex := 0, signatoryKey := List.replicate 33 2,
        signature := List.replicate 64 0 }).2 ⟨[86], 1⟩ (by decide) (by decide)
     (by decide) rfl⟩

end BitcoinPeg
